import Mathlib

/-!
# Verification of the Discordeno channel-edit core

A shallow embedding of the rate-limit-aware mutation admission controller
("Mutation Scheduler") and the permission-overwrite resolution logic
("Permission Resolver") of `src/handlers/channel.ts`, together with the
permission-bit aggregation used by `editChannel` and `createGuildRole`.

Modelling conventions:
* JS `BigInt` permission masks are `Nat` (arbitrary precision, as BigInt is).
* JS `number` bitwise OR (used by `createGuildRole`) is modelled with explicit
  32-bit signed semantics (`ToInt32` of each operand, bitwise or of the 32-bit
  patterns, reinterpreted as a signed 32-bit value).
* The JS `Map` keyed by channel id is an association list in insertion order
  (`Map.set` on a fresh key appends; on an existing key it updates in place;
  `forEach` visits entries in insertion order).
* Time is an explicit `now : Nat` parameter (`Date.now()` in milliseconds).
* The result of the asynchronous capability lookup
  (`botHasChannelPermissions`) is an explicit `hasPerm : Bool` parameter.
* Every `RequestManager.patch` issued to the transport is appended to a `log`
  field of the scheduler state, so "forwarded to the transport" is visible in
  the model.
* `editChannel`'s deferred-queue drain (`processEditChannelQueue`) re-invokes
  `editChannel` on popped items.  In the event loop those re-entrant calls run
  strictly after the synchronous `forEach` pass and the trailing size check
  (each re-entrant body suspends at its first `await`), and they observe
  `editChannelProcessing = true`, so they can never start a second drain.
  The mutual recursion is therefore bounded; it is embedded with a fuel
  parameter whose fuel-0 fallback (start no drain, only set the flag) is dead
  code in every reachable execution (see `editChannelCore_processing_true`).
-/

namespace Discordeno

/-- An entry of a channel's `permission_overwrites` list (`RawOverwrite` in
`src/types/guild.ts`): a principal id and BigInt allow/deny masks. -/
structure RawOverwrite where
  id : String
  allow : Nat
  deny : Nat
deriving DecidableEq, Repr

/-- The overwrite entry `channelOverwriteHasPermission` resolves against:
the first entry whose id is the principal id, else the first entry whose id
is the guild (root) id. -/
def matchedOverwrite (guildID : String) (id : String)
    (overwrites : List RawOverwrite) : Option RawOverwrite :=
  match overwrites.find? (fun perm => perm.id == id) with
  | some ow => some ow
  | none => overwrites.find? (fun perm => perm.id == guildID)

/-- Transcription of `channelOverwriteHasPermission`
(`src/handlers/channel.ts:23`): for every required permission value, the
matched overwrite must not have any of its bits denied and must have some of
its bits allowed. -/
def channelOverwriteHasPermission (guildID : String) (id : String)
    (overwrites : List RawOverwrite) (permissions : List Nat) : Bool :=
  permissions.all fun perm =>
    match matchedOverwrite guildID id overwrites with
    | some ow =>
      if ow.deny &&& perm ≠ 0 then false
      else if ow.allow &&& perm ≠ 0 then true
      else false
    | none => false

/-- Modelled from the spec: the named-permission table (the `Permissions`
enum of `src/types/permission.ts`, which is not included under `src/`).
Spec §3: a permission bitmask is "an unsigned integer-like value (must
support widths beyond 32 bits) where each bit denotes one discrete
capability", aggregated from a named-permission array via OR-reduction.
Each name is assigned one discrete bit; as the spec requires widths beyond
32 bits, the table includes a capability at bit 37. -/
def Permissions (member : String) : Nat :=
  match member with
  | "CREATE_INSTANT_INVITE" => 2 ^ 0
  | "MANAGE_CHANNELS" => 2 ^ 4
  | "VIEW_CHANNEL" => 2 ^ 10
  | "SEND_MESSAGES" => 2 ^ 11
  | "MANAGE_ROLES" => 2 ^ 28
  | "USE_EXTERNAL_STICKERS" => 2 ^ 37
  | _ => 0

/-- The BigInt OR-reduction used for the `allow`/`deny` masks in
`editChannel`'s payload (`src/handlers/channel.ts:397`):
`reduce((bits, perm) => bits |= BigInt(Permissions[perm]), 0n)`. -/
def calculateBitsBig (table : String → Nat) (perms : List String) : Nat :=
  perms.foldl (fun bits perm => bits ||| table perm) 0

/-- JS `ToUint32` of an integer already in signed range: the two's-complement
32-bit pattern. -/
def toUInt32 (i : Int) : Nat := (i % (2 ^ 32 : Int)).toNat

/-- JS `ToInt32`: reduce mod `2^32` and reinterpret as a signed 32-bit
value. -/
def toInt32 (n : Nat) : Int :=
  if n % 2 ^ 32 < 2 ^ 31 then ((n % 2 ^ 32 : Nat) : Int)
  else ((n % 2 ^ 32 : Nat) : Int) - (2 ^ 32 : Int)

/-- JS `a | b` on `number` operands: each operand is converted with
`ToInt32`, the 32-bit patterns are or-ed, and the result is a signed 32-bit
value.  Bits at position 32 and above are discarded. -/
def jsOrNumber (a : Int) (b : Int) : Int :=
  toInt32 (toUInt32 a ||| toUInt32 b)

/-- Transcription of the `permissions` field `createGuildRole` sends
(`src/unnamed/part_000:301`): `options.permissions?.reduce((subtotal, perm)
=> { subtotal |= Permissions[perm]; return subtotal; }, 0)` — a plain JS
`number` OR-reduction. -/
def createGuildRolePermissionBits (table : String → Nat)
    (permissions : Option (List String)) : Option Int :=
  permissions.map fun perms =>
    perms.foldl (fun subtotal perm => jsOrNumber subtotal ((table perm : Nat) : Int)) 0

/-- An overwrite inside `ChannelEditOptions.overwrites`: a principal id with
named-permission arrays. -/
structure OverwriteOptions where
  id : String
  allow : List String
  deny : List String
deriving DecidableEq, Repr

/-- The fields of `ChannelEditOptions` (`src/types/channel.ts`, collaborator
type) that the scheduler and payload construction read.  `none` models an
absent field. -/
structure ChannelEditOptions where
  name : Option String := none
  topic : Option String := none
  slowmode : Option Nat := none
  parentID : Option String := none
  userLimit : Option Nat := none
  overwrites : Option (List OverwriteOptions) := none
deriving DecidableEq, Repr

/-- JS truthiness of a possibly absent string: `undefined` and `""` are
falsy, every other string is truthy. -/
def truthyStr : Option String → Bool
  | none => false
  | some s => s != ""

/-- An aggregated overwrite as placed into the PATCH payload. -/
structure PayloadOverwrite where
  id : String
  allow : Nat
  deny : Nat
deriving DecidableEq, Repr

/-- The body `editChannel` PATCHes to the transport
(`src/handlers/channel.ts:388`). -/
structure EditPayload where
  name : Option String
  topic : Option String
  rate_limit_per_user : Option Nat
  parent_id : Option String
  user_limit : Option Nat
  permission_overwrites : Option (List PayloadOverwrite)
deriving DecidableEq, Repr

/-- Payload construction in `editChannel`: rename the camelCase options to
the wire names and aggregate each overwrite's named permissions with the
BigInt OR-reduction. -/
def mkEditPayload (options : ChannelEditOptions) : EditPayload :=
  { name := options.name
    topic := options.topic
    rate_limit_per_user := options.slowmode
    parent_id := options.parentID
    user_limit := options.userLimit
    permission_overwrites := options.overwrites.map (List.map fun ow =>
      { id := ow.id
        allow := calculateBitsBig Permissions ow.allow
        deny := calculateBitsBig Permissions ow.deny }) }

/-- A deferred edit queued inside an `EditChannelRequest`
(`{ channelID, options }`). -/
structure QueueItem where
  channelID : String
  options : ChannelEditOptions
deriving DecidableEq, Repr

/-- The per-channel Pending-mutation record (`EditChannelRequest`,
`src/handlers/channel.ts:302`). -/
structure EditChannelRequest where
  amount : Nat
  timestamp : Nat
  channelID : String
  items : List QueueItem
deriving DecidableEq, Repr

/-- The `editChannelNameTopicQueue` JS `Map`, as an insertion-ordered
association list with unique keys. -/
abbrev QueueMap := List (String × EditChannelRequest)

/-- `Map.get`. -/
def mapGet (m : QueueMap) (k : String) : Option EditChannelRequest :=
  match m with
  | [] => none
  | (k', v) :: rest => if k' = k then some v else mapGet rest k

/-- `Map.set`: update in place when the key exists, else append. -/
def mapSet (m : QueueMap) (k : String) (v : EditChannelRequest) : QueueMap :=
  match m with
  | [] => [(k, v)]
  | (k', v') :: rest => if k' = k then (k', v) :: rest else (k', v') :: mapSet rest k v

/-- `Map.delete`. -/
def mapDelete (m : QueueMap) (k : String) : QueueMap :=
  match m with
  | [] => []
  | (k', v') :: rest => if k' = k then rest else (k', v') :: mapDelete rest k

/-- The scheduler state: the `editChannelNameTopicQueue` map, the
`editChannelProcessing` flag, and the trace of `(channelID, payload)` PATCH
requests issued to the transport so far. -/
structure SchedState where
  queue : QueueMap
  processing : Bool
  log : List (String × EditPayload)
deriving DecidableEq, Repr

/-- The names of the `Errors` enum values this core throws. -/
def MISSING_MANAGE_CHANNELS : String := "MISSING_MANAGE_CHANNELS"

/-- The observable outcome of one `editChannel` call: a capability error
(rejected before any state transition), a payload forwarded to the
transport, or a deferred call that resolves without a result. -/
inductive EditResult where
  | permError (err : String)
  | forwarded (payload : EditPayload)
  | deferred
deriving DecidableEq, Repr

/-- The body of the `forEach` callback in `processEditChannelQueue`
(`src/handlers/channel.ts:319`) for the entry at key `k`: skip the record
when `now` is past its timestamp, delete it when its queue is empty, else
set its count to 0 and shift up to two items (returned for re-submission). -/
def drainStep (now : Nat) (st : QueueMap) (k : String) :
    QueueMap × List QueueItem :=
  match mapGet st k with
  | none => (st, [])
  | some request =>
    if now > request.timestamp then (st, [])
    else if request.items.isEmpty then (mapDelete st request.channelID, [])
    else
      match request.items with
      | [] => (st, [])
      | d1 :: rest =>
        match rest with
        | [] => (mapSet st k ({ request with amount := 0, items := [] }), [d1])
        | d2 :: rest2 =>
          (mapSet st k ({ request with amount := 0, items := rest2 }), [d1, d2])

/-- Transcription of `editChannel` (`src/handlers/channel.ts:348`), with the
drain it may start passed as a function.  The capability check happens
first; an edit touching a truthy `name` or `topic` passes through the
record's admission logic (create with count 1 / bump count to 2 and refresh
the window / append to the queue and defer); every other edit, and every
admitted edit, is forwarded to the transport. -/
def editChannelCore (drain : SchedState → SchedState) (now : Nat)
    (hasPerm : Bool) (channelID : String) (options : ChannelEditOptions)
    (s : SchedState) : EditResult × SchedState :=
  if hasPerm = false then (.permError MISSING_MANAGE_CHANNELS, s)
  else if truthyStr options.name || truthyStr options.topic then
    match mapGet s.queue channelID with
    | none =>
      let s1 : SchedState :=
        { s with queue := mapSet s.queue channelID ⟨1, now + 600000, channelID, []⟩ }
      (.forwarded (mkEditPayload options),
        { s1 with log := s1.log ++ [(channelID, mkEditPayload options)] })
    | some request =>
      if request.amount = 1 then
        let req1 : EditChannelRequest :=
          { request with amount := 2, timestamp := now + 600000 }
        let s1 : SchedState := { s with queue := mapSet s.queue channelID req1 }
        (.forwarded (mkEditPayload options),
          { s1 with log := s1.log ++ [(channelID, mkEditPayload options)] })
      else
        let req1 : EditChannelRequest :=
          { request with items := request.items ++ [⟨channelID, options⟩] }
        let s1 : SchedState := { s with queue := mapSet s.queue channelID req1 }
        if s1.processing then (.deferred, s1)
        else (.deferred, drain { s1 with processing := true })
  else
    (.forwarded (mkEditPayload options),
      { s with log := s.log ++ [(channelID, mkEditPayload options)] })

/-- Transcription of `processEditChannelQueue`
(`src/handlers/channel.ts:315`), with the `editChannel` used for the popped
items' re-submission passed as a function.  One drain tick: bail out unless
a drain cycle is marked running; run `drainStep` over the entries in
insertion order; keep the cycle running iff the map is non-empty (the next
tick is the caller's concern — `setTimeout` is external to the state); then
run the re-entrant `editChannel` bodies of the popped items, in pop order
(they are microtasks that resume after the synchronous pass). -/
def processQueueCore
    (edit : String → ChannelEditOptions → SchedState → SchedState)
    (now : Nat) (s : SchedState) : SchedState :=
  if s.processing = false then s
  else
    let keys := s.queue.map Prod.fst
    let step := keys.foldl
      (fun acc k =>
        let r := drainStep now acc.1 k
        (r.1, acc.2 ++ r.2))
      (s.queue, ([] : List QueueItem))
    let s1 : SchedState :=
      { queue := step.1, processing := !step.1.isEmpty, log := s.log }
    step.2.foldl (fun st it => edit it.channelID it.options st) s1

/-- `editChannel` with a fuel bound on the re-entrance depth through
`processEditChannelQueue`.  At fuel 0 a would-be drain start only sets the
flag; this branch is unreachable from the exported entry points (a
re-entrant call always observes `processing = true`). -/
def editChannelFuel : Nat → Nat → Bool → String → ChannelEditOptions →
    SchedState → EditResult × SchedState
  | 0, now, hasPerm, channelID, options, s =>
    editChannelCore (fun st => st) now hasPerm channelID options s
  | fuel + 1, now, hasPerm, channelID, options, s =>
    editChannelCore
      (fun st => processQueueCore
        (fun c o stt => (editChannelFuel fuel now hasPerm c o stt).2) now st)
      now hasPerm channelID options s

/-- The exported `editChannel` entry point.  Fuel 2 covers the deepest
reachable chain: entry call → drain → re-entrant calls (which never drain
again). -/
def editChannel (now : Nat) (hasPerm : Bool) (channelID : String)
    (options : ChannelEditOptions) (s : SchedState) :
    EditResult × SchedState :=
  editChannelFuel 2 now hasPerm channelID options s

/-- One `processEditChannelQueue` tick as fired by the recurring timer.
`hasPerm` is the capability lookup's answer for the re-submitted items. -/
def processEditChannelQueue (now : Nat) (hasPerm : Bool) (s : SchedState) :
    SchedState :=
  processQueueCore
    (fun c o st => (editChannelFuel 1 now hasPerm c o st).2) now s

/-- The initial scheduler state: empty map, no drain cycle, nothing sent. -/
def initState : SchedState := ⟨[], false, []⟩

/-- Justification for the fuel embedding: when the processing flag is set —
as it is for every call `processEditChannelQueue` makes — `editChannelCore`
never invokes its drain argument, so the drain function (hence the fuel) is
irrelevant. -/
theorem editChannelCore_processing_true (d₁ d₂ : SchedState → SchedState)
    (now : Nat) (hasPerm : Bool) (ch : String) (o : ChannelEditOptions)
    (s : SchedState) (h : s.processing = true) :
    editChannelCore d₁ now hasPerm ch o s = editChannelCore d₂ now hasPerm ch o s := by
  unfold editChannelCore
  cases hasPerm with
  | false => rfl
  | true =>
    simp only [Bool.true_eq_false, if_false]
    cases htr : truthyStr o.name || truthyStr o.topic with
    | false => simp [htr]
    | true =>
      simp only [htr, if_true]
      cases hget : mapGet s.queue ch with
      | none => rfl
      | some request =>
        by_cases hamt : request.amount = 1
        · simp [hamt]
        · simp [hamt, h]

/-- A mask `and`-ed with a single bit is nonzero exactly when the mask has
that bit set. -/
theorem and_two_pow_ne_zero (n k : Nat) :
    n &&& 2 ^ k ≠ 0 ↔ n.testBit k = true := by
  rw [Nat.and_two_pow]
  cases h : n.testBit k with
  | false => simp
  | true => simp [Nat.pos_iff_ne_zero.mp (Nat.two_pow_pos k)]

/-- A mask `and`-ed with a single bit is zero exactly when the mask has that
bit clear. -/
theorem and_two_pow_eq_zero (n k : Nat) :
    n &&& 2 ^ k = 0 ↔ n.testBit k = false := by
  rw [Nat.and_two_pow]
  cases h : n.testBit k with
  | false => simp
  | true => simp [Nat.pos_iff_ne_zero.mp (Nat.two_pow_pos k)]

/-- C1: for every overwrite list, principal id, root id and non-empty set of
required permission bits, `channelOverwriteHasPermission` returns true iff
every required bit is set in the allow mask and clear in the deny mask of
the single matched overwrite entry (the entry whose id equals the principal
id, else the entry whose id equals the root id); in particular it is false
for every required bit when no entry matches, and a denied bit loses even
when the same bit is allowed. -/
theorem channelOverwriteHasPermission_iff (guildID id : String)
    (ows : List RawOverwrite) (perms : List Nat)
    (_hne : perms ≠ [])
    (hbits : ∀ p ∈ perms, ∃ k, p = 2 ^ k) :
    channelOverwriteHasPermission guildID id ows perms = true ↔
      ∀ p ∈ perms, ∃ ow, matchedOverwrite guildID id ows = some ow ∧
        ∀ k, p = 2 ^ k → (ow.allow.testBit k = true ∧ ow.deny.testBit k = false) := by
  unfold channelOverwriteHasPermission
  rw [List.all_eq_true]
  constructor
  · intro h p hp
    have hb := h p hp
    cases hmo : matchedOverwrite guildID id ows with
    | none => rw [hmo] at hb; simp at hb
    | some ow =>
      rw [hmo] at hb
      by_cases hd : ow.deny &&& p ≠ 0
      · simp [hd] at hb
      · by_cases ha : ow.allow &&& p ≠ 0
        · refine ⟨ow, rfl, ?_⟩
          intro k hk
          subst hk
          push_neg at hd
          exact ⟨(and_two_pow_ne_zero _ _).mp ha, (and_two_pow_eq_zero _ _).mp hd⟩
        · simp [hd, ha] at hb
  · intro h p hp
    obtain ⟨ow, hmo, hP⟩ := h p hp
    obtain ⟨k, hk⟩ := hbits p hp
    obtain ⟨hA, hD⟩ := hP k hk
    subst hk
    rw [hmo]
    have ha : ow.allow &&& 2 ^ k ≠ 0 := (and_two_pow_ne_zero _ _).mpr hA
    have hd : ow.deny &&& 2 ^ k = 0 := (and_two_pow_eq_zero _ _).mpr hD
    simp [ha, hd]

/-- Witness for C1 at a concrete input: principal overwrite `⟨"u", 2, 1⟩`
(bit 1 allowed, bit 0 denied) and required set `[2]`. -/
theorem channelOverwriteHasPermission_iff_witness :
    channelOverwriteHasPermission "g" "u" [⟨"u", 2, 1⟩] [2] = true ↔
      ∀ p ∈ ([2] : List Nat), ∃ ow,
        matchedOverwrite "g" "u" [⟨"u", 2, 1⟩] = some ow ∧
        ∀ k, p = 2 ^ k → (ow.allow.testBit k = true ∧ ow.deny.testBit k = false) :=
  channelOverwriteHasPermission_iff "g" "u" [⟨"u", 2, 1⟩] [2]
    (by decide)
    (by
      intro p hp
      simp only [List.mem_singleton] at hp
      exact ⟨1, by rw [hp]; rfl⟩)

/-- C9: with an empty required-permission array the resolver returns true —
the conjunction over the required set is vacuous — for every overwrite list
and ids, including when no entry matches. -/
theorem channelOverwriteHasPermission_vacuous (guildID id : String)
    (ows : List RawOverwrite) :
    channelOverwriteHasPermission guildID id ows [] = true := rfl

/-- C5: a call to `editChannel` without the MANAGE_CHANNELS capability
rejects with the capability error naming the missing permission, before any
transport request and before any scheduler-state transition: the returned
state — map, drain-cycle flag and transport log — is exactly the input
state. -/
theorem editChannel_no_capability (now : Nat) (channelID : String)
    (options : ChannelEditOptions) (s : SchedState) :
    editChannel now false channelID options s =
      (.permError MISSING_MANAGE_CHANNELS, s) := rfl

/-- C7: an edit whose options have no truthy `name` and no truthy `topic`
bypasses the scheduler: whatever the state of the map (any record, any
count, any queue), the payload is forwarded to the transport immediately
and the map and drain-cycle flag are unchanged. -/
theorem editChannel_non_throttled (now : Nat) (channelID : String)
    (options : ChannelEditOptions) (s : SchedState)
    (hn : truthyStr options.name = false)
    (ht : truthyStr options.topic = false) :
    editChannel now true channelID options s =
      (.forwarded (mkEditPayload options),
        { s with log := s.log ++ [(channelID, mkEditPayload options)] }) := by
  simp [editChannel, editChannelFuel, editChannelCore, hn, ht]

/-- Witness for C7: a slowmode-only edit against a saturated (count-2)
record is forwarded at once and leaves the scheduler untouched. -/
theorem editChannel_non_throttled_witness :
    editChannel 7 true "c" { slowmode := some 5 }
        ⟨[("c", ⟨2, 50, "c", []⟩)], false, []⟩ =
      (.forwarded (mkEditPayload { slowmode := some 5 }),
        ⟨[("c", ⟨2, 50, "c", []⟩)], false,
          [("c", mkEditPayload { slowmode := some 5 })]⟩) :=
  editChannel_non_throttled 7 "c" { slowmode := some 5 }
    ⟨[("c", ⟨2, 50, "c", []⟩)], false, []⟩ rfl rfl

/-- C10: throttled-field detection tests JS truthiness, not presence: an
edit whose `name` or `topic` is the empty string (and whose other throttled
field is empty or absent) bypasses the Mutation Scheduler entirely and is
forwarded immediately, even when the resource's record is in the count-2
state. -/
theorem editChannel_empty_string_bypass (now : Nat) (channelID : String)
    (options : ChannelEditOptions) (s : SchedState)
    (req : EditChannelRequest)
    (hn : options.name = some "" ∨ options.name = none)
    (ht : options.topic = some "" ∨ options.topic = none)
    (_hone : options.name = some "" ∨ options.topic = some "")
    (_hrec : mapGet s.queue channelID = some req)
    (_hamt : req.amount = 2) :
    editChannel now true channelID options s =
      (.forwarded (mkEditPayload options),
        { s with log := s.log ++ [(channelID, mkEditPayload options)] }) := by
  have hn' : truthyStr options.name = false := by
    cases hn with
    | inl h => rw [h]; rfl
    | inr h => rw [h]; rfl
  have ht' : truthyStr options.topic = false := by
    cases ht with
    | inl h => rw [h]; rfl
    | inr h => rw [h]; rfl
  simp [editChannel, editChannelFuel, editChannelCore, hn', ht']

/-- Witness for C10: an edit setting `name := ""` against a count-2 record
is forwarded immediately with the scheduler untouched. -/
theorem editChannel_empty_string_bypass_witness :
    editChannel 7 true "c" { name := some "" }
        ⟨[("c", ⟨2, 50, "c", []⟩)], false, []⟩ =
      (.forwarded (mkEditPayload { name := some "" }),
        ⟨[("c", ⟨2, 50, "c", []⟩)], false,
          [("c", mkEditPayload { name := some "" })]⟩) :=
  editChannel_empty_string_bypass 7 "c" { name := some "" }
    ⟨[("c", ⟨2, 50, "c", []⟩)], false, []⟩ ⟨2, 50, "c", []⟩
    (Or.inl rfl) (Or.inr rfl) (Or.inl rfl) rfl rfl

/-- Folding BigInt OR over a list sets exactly the union of the operands'
bits on top of the accumulator. -/
theorem foldl_lor_testBit (table : String → Nat) (i : Nat) :
    ∀ (perms : List String) (acc : Nat),
      (perms.foldl (fun bits perm => bits ||| table perm) acc).testBit i =
        (acc.testBit i || perms.any fun p => (table p).testBit i) := by
  intro perms
  induction perms with
  | nil => intro acc; simp
  | cons hd tl ih =>
    intro acc
    simp only [List.foldl_cons, List.any_cons, ih, Nat.testBit_or, Bool.or_assoc]

/-- C8 (amended): the BigInt OR-reduction `calculateBitsBig` — the
aggregation `editChannel` uses for the overwrite allow/deny masks — equals
the OR of the named permissions' bit values with no truncation at any bit
position: bit `i` of the aggregate is set iff some listed permission has
bit `i` set, for every `i`, including positions 32 and above.
(`createGuildRole`'s aggregation is excluded: see the counterexample.) -/
theorem calculateBitsBig_testBit (table : String → Nat)
    (perms : List String) (i : Nat) :
    (calculateBitsBig table perms).testBit i =
      perms.any fun p => (table p).testBit i := by
  unfold calculateBitsBig
  rw [foldl_lor_testBit, Nat.zero_testBit, Bool.false_or]

/-- Counterexample to C8 as stated: `createGuildRole` aggregates with plain
JS `number` bitwise OR, whose `ToInt32` conversion discards bits at
position 32 and above, so the bit-37 capability aggregates to 0 there while
the OR-reduction (as used by `editChannel`) yields `2 ^ 37`. -/
theorem createGuildRole_truncates_high_bits :
    createGuildRolePermissionBits Permissions (some ["USE_EXTERNAL_STICKERS"]) =
        some 0 ∧
      calculateBitsBig Permissions ["USE_EXTERNAL_STICKERS"] = 2 ^ 37 := by
  constructor
  · rfl
  · rfl

/-- Counterexample to C6 as stated: resource B holds an empty-queue record
inside its window; a third throttled edit to resource A is deferred and
starts a drain, and that drain iterates the whole map and deletes B's
record — so saturating A's burst does modify B's Pending-mutation record. -/
theorem editChannel_cross_resource_counterexample :
    mapGet (editChannel 0 true "a" { name := some "x" }
        ⟨[("b", ⟨2, 1000, "b", []⟩), ("a", ⟨2, 1000, "a", []⟩)], false, []⟩).2.queue
        "b" = none ∧
      mapGet [("b", (⟨2, 1000, "b", []⟩ : EditChannelRequest)),
          ("a", ⟨2, 1000, "a", []⟩)] "b" =
        some ⟨2, 1000, "b", []⟩ := by
  constructor
  · rfl
  · rfl

/-- C6 (amended): the scheduler decision for an edit to a resource depends
only on that resource's own record: two states agreeing on resource B's
record give the same `editChannel` outcome (forward / defer / reject) for
an edit to B, whatever records other resources hold — so one resource's
backlog never defers another's edit.  (A drain tick started by another
resource's deferred edit may still delete or reset B's record, per the
counterexample.) -/
theorem editChannel_decision_depends_on_own_record (now : Nat)
    (hasPerm : Bool) (channelID : String) (options : ChannelEditOptions)
    (s t : SchedState)
    (h : mapGet s.queue channelID = mapGet t.queue channelID) :
    (editChannel now hasPerm channelID options s).1 =
      (editChannel now hasPerm channelID options t).1 := by
  unfold editChannel editChannelFuel editChannelCore
  cases hasPerm with
  | false => rfl
  | true =>
    simp only [Bool.true_eq_false, if_false]
    cases htr : truthyStr options.name || truthyStr options.topic with
    | false => rfl
    | true =>
      simp only [if_true]
      rw [h]
      cases mapGet t.queue channelID with
      | none => rfl
      | some request =>
        by_cases hamt : request.amount = 1
        · simp [hamt]
        · simp only [hamt, if_false]
          cases s.processing <;> cases t.processing <;> simp

/-- Witness for C6 (amended): two states agreeing that channel "c" has no
record — one of them holding a record for another channel — give the same
outcome for an edit to "c". -/
theorem editChannel_decision_depends_on_own_record_witness :
    (editChannel 0 true "c" { name := some "x" }
        ⟨[("a", ⟨1, 9, "a", []⟩)], false, []⟩).1 =
      (editChannel 0 true "c" { name := some "x" } initState).1 :=
  editChannel_decision_depends_on_own_record 0 true "c" { name := some "x" }
    ⟨[("a", ⟨1, 9, "a", []⟩)], false, []⟩ initState rfl

/-- C3 evaluated at the failing input: a drain tick on a record holding 3
queued edits (inside its window) forwards nothing.  The tick resets the
count to 0 and pops the first two items, but each popped item is
re-submitted through `editChannel`, which — finding a record whose count is
neither absent nor 1 — appends it back to the queue instead of forwarding.
The transport log stays empty and all 3 items are still queued (rotated),
where the claim requires the first 2 to reach the transport and exactly 1
to remain. -/
theorem drain_three_queued_forwards_none :
    processEditChannelQueue 0 true
        ⟨[("c", ⟨2, 1000, "c",
            [⟨"c", { name := some "a" }⟩, ⟨"c", { name := some "b" }⟩,
              ⟨"c", { name := some "d" }⟩]⟩)], true, []⟩ =
      ⟨[("c", ⟨0, 1000, "c",
          [⟨"c", { name := some "d" }⟩, ⟨"c", { name := some "a" }⟩,
            ⟨"c", { name := some "b" }⟩]⟩)], true, []⟩ := by
  rfl

/-- C4 evaluated at the failing input: a drain tick at `now = 10` on a map
holding an empty-queue record whose window expired at 5 and a one-item
record inside its window.  The guard `now > timestamp` skips the expired
record (its own comment says the opposite was intended), so the empty-queue
record survives; the one-item record's popped item is re-queued by the
re-entrant `editChannel` (count was reset to 0, which lands in the defer
branch), so nothing is forwarded and the record is not removed — where the
claim requires the empty record deleted and the single item forwarded. -/
theorem drain_keeps_expired_empty_record :
    processEditChannelQueue 10 true
        ⟨[("e", ⟨2, 5, "e", []⟩),
          ("f", ⟨2, 1000, "f", [⟨"f", { name := some "q" }⟩]⟩)], true, []⟩ =
      ⟨[("e", ⟨2, 5, "e", []⟩),
        ("f", ⟨0, 1000, "f", [⟨"f", { name := some "q" }⟩]⟩)], true, []⟩ := by
  rfl

/-- C2: three throttled edits to one resource in rapid succession, starting
with no Pending-mutation record.  Edit 1 creates the record with count 1
and expiry `now₁ + 10min` and is forwarded immediately; edit 2 bumps the
count to 2, refreshes the expiry to `now₂ + 10min`, and is forwarded
immediately; edit 3 is appended to the record's queue, resolves as
deferred, and is never forwarded to the transport — the log after the
third call (which includes the drain tick that call starts) still holds
exactly the first two payloads, and edit 3 is still queued. -/
theorem editChannel_three_throttled_edits (ch : String)
    (o1 o2 o3 : ChannelEditOptions) (now1 now2 now3 : Nat)
    (h1 : (truthyStr o1.name || truthyStr o1.topic) = true)
    (h2 : (truthyStr o2.name || truthyStr o2.topic) = true)
    (h3 : (truthyStr o3.name || truthyStr o3.topic) = true)
    (hrapid : now3 ≤ now2 + 600000) :
    editChannel now1 true ch o1 initState =
      (.forwarded (mkEditPayload o1),
        ⟨[(ch, ⟨1, now1 + 600000, ch, []⟩)], false,
          [(ch, mkEditPayload o1)]⟩) ∧
    editChannel now2 true ch o2
        ⟨[(ch, ⟨1, now1 + 600000, ch, []⟩)], false,
          [(ch, mkEditPayload o1)]⟩ =
      (.forwarded (mkEditPayload o2),
        ⟨[(ch, ⟨2, now2 + 600000, ch, []⟩)], false,
          [(ch, mkEditPayload o1), (ch, mkEditPayload o2)]⟩) ∧
    editChannel now3 true ch o3
        ⟨[(ch, ⟨2, now2 + 600000, ch, []⟩)], false,
          [(ch, mkEditPayload o1), (ch, mkEditPayload o2)]⟩ =
      (.deferred,
        ⟨[(ch, ⟨0, now2 + 600000, ch, [⟨ch, o3⟩]⟩)], true,
          [(ch, mkEditPayload o1), (ch, mkEditPayload o2)]⟩) := by
  have hng : ¬ (now2 + 600000 < now3) := by omega
  refine ⟨?_, ?_, ?_⟩
  · simp [editChannel, editChannelFuel, editChannelCore, initState,
      mapGet, mapSet, h1]
  · simp [editChannel, editChannelFuel, editChannelCore, mapGet, mapSet, h2]
  · have h3' : truthyStr o3.name = true ∨ truthyStr o3.topic = true := by
      simpa using h3
    simp [editChannel, editChannelFuel, editChannelCore, processQueueCore,
      drainStep, mapGet, mapSet, mapDelete, h3, h3', hng]

/-- Witness for C2: the three-edit burst at concrete inputs. -/
theorem editChannel_three_throttled_edits_witness :
    editChannel 0 true "c" { name := some "a" } initState =
      (.forwarded (mkEditPayload { name := some "a" }),
        ⟨[("c", ⟨1, 0 + 600000, "c", []⟩)], false,
          [("c", mkEditPayload { name := some "a" })]⟩) ∧
    editChannel 1 true "c" { name := some "b" }
        ⟨[("c", ⟨1, 0 + 600000, "c", []⟩)], false,
          [("c", mkEditPayload { name := some "a" })]⟩ =
      (.forwarded (mkEditPayload { name := some "b" }),
        ⟨[("c", ⟨2, 1 + 600000, "c", []⟩)], false,
          [("c", mkEditPayload { name := some "a" }),
            ("c", mkEditPayload { name := some "b" })]⟩) ∧
    editChannel 2 true "c" { name := some "d" }
        ⟨[("c", ⟨2, 1 + 600000, "c", []⟩)], false,
          [("c", mkEditPayload { name := some "a" }),
            ("c", mkEditPayload { name := some "b" })]⟩ =
      (.deferred,
        ⟨[("c", ⟨0, 1 + 600000, "c", [⟨"c", { name := some "d" }⟩]⟩)], true,
          [("c", mkEditPayload { name := some "a" }),
            ("c", mkEditPayload { name := some "b" })]⟩) :=
  editChannel_three_throttled_edits "c" { name := some "a" }
    { name := some "b" } { name := some "d" } 0 1 2
    rfl rfl rfl (by omega)

end Discordeno
